import Mathlib

/-!
Verification of the scope graph and validator of a BrightScript/BrighterScript
static-analysis core, against its natural-language specification.

The definitions below are a shallow embedding of the `Scope` class
(`src/unnamed/part_001`).  Collaborator interfaces that live outside the
provided sources (DependencyGraph, Program file/component lookup, the
`util` helpers, `BscFile` accessors such as `getFunctionScopeAtPosition`)
are modelled from the specification; each such definition says so in its
doc comment.  JavaScript strings are modelled by Lean `String`, machine
`===` identity of file and scope objects by a numeric `fid`/`sid` tag, and
JS `Map` by an insertion-ordered association list.
-/

namespace Bsc

/-- Models JavaScript `String.prototype.toLowerCase` (ASCII range, which is
all the analysed identifiers use): lower each character, working on the
character list directly. -/
def jsToLower (s : String) : String := ⟨s.data.map Char.toLower⟩

/-- Models JavaScript `String.prototype.startsWith`, working on the
character list directly. -/
def jsStartsWith (s pre : String) : Bool := pre.data.isPrefixOf s.data

/-- The whitespace characters JS `trim` strips (the ASCII ones, which is all
the analysed sources contain). -/
def isJsSpace (c : Char) : Bool :=
  c == ' ' || c == '\t' || c == '\n' || c == '\r'

/-- Models JavaScript `String.prototype.trim` (strips surrounding
whitespace), working on the character list directly. -/
def jsTrim (s : String) : String :=
  ⟨((s.data.dropWhile isJsSpace).reverse.dropWhile isJsSpace).reverse⟩

/-- A source range: zero-based line/character positions.  The distinguished
interpolated range uses -1, hence `Int`. -/
structure SrcRange where
  startLine : Int := 0
  startCharacter : Int := 0
  endLine : Int := 0
  endCharacter : Int := 0
deriving DecidableEq, Repr

/-- The parameter record of a callable declaration: only `isOptional` is read
by the arity check (source lines 541-548). -/
structure Param where
  isOptional : Bool
deriving DecidableEq, Repr

/-- The fields of a callable's declaring file that the `Scope` code reads
(`callable.file.pathAbsolute`, `callable.file.pkgPath`, and `===` identity,
modelled by `fid`). -/
structure CallableFileRef where
  fid : Nat
  pkgPath : String := ""
  pathAbsolute : String := ""
deriving DecidableEq, Repr

/-- A callable declaration.  `name` models `callable.name`; `fullName` models
`callable.getName(ParseMode.BrighterScript)`, which may be `undefined` for
malformed declarations (hence `Option`). -/
structure Callable where
  name : String
  fullName : Option String := none
  params : List Param := []
  nameRange : SrcRange := {}
  file : CallableFileRef
deriving DecidableEq, Repr

/-- Identity and name of a scope, as observed through `container.scope`:
`sid` models JS object identity (`===`), `name` the scope's public name. -/
structure ScopeId where
  sid : Nat
  name : String
deriving DecidableEq, Repr

/-- A callable paired with the scope that surfaced it (`interfaces.CallableContainer`). -/
structure CallableContainer where
  callable : Callable
  scope : ScopeId
deriving DecidableEq, Repr

/-- The inferred type of a local variable; the validator only asks
`isFunctionType` of it. -/
inductive BscTypeKind where
  | functionType
  | otherType
deriving DecidableEq, Repr

/-- A local variable declaration inside a function scope. -/
structure Variable where
  name : String
  nameRange : SrcRange := {}
  type : BscTypeKind := .otherType
deriving DecidableEq, Repr

/-- A function-local scope: the validator only reads `variableDeclarations`. -/
structure FunctionScope where
  variableDeclarations : List Variable := []
deriving DecidableEq, Repr

/-- A function-call record of a file.  `argCount` models `expCall.args.length`.
`functionScopeIdx` models the position-based resolution performed by
`file.getFunctionScopeAtPosition(expCall.nameRange.start)` (a collaborator of
`Scope` that is not part of the provided sources): it indexes the innermost
enclosing function scope in `file.functionScopes`, or is `none` when the call
is outside any function scope. -/
structure FunctionCall where
  name : String
  argCount : Nat := 0
  nameRange : SrcRange := {}
  functionScopeIdx : Option Nat := none
deriving DecidableEq, Repr

/-- A declared-namespace statement; `name` is the full dotted name, as
returned by both `namespace.name` and `namespace.nameExpression.getName`. -/
structure NamespaceStmt where
  name : String
deriving DecidableEq, Repr

/-- A class statement; `name` models `cls.getName(ParseMode.BrighterScript)`,
which may be `undefined` for nameless malformed classes. -/
structure ClassStmt where
  name : Option String := none
deriving DecidableEq, Repr

/-- A parameter of a function expression (name and range are read by the
namespace-collision check). -/
structure FnExprParam where
  name : String
  nameRange : SrcRange := {}
deriving DecidableEq, Repr

/-- A function expression: the validator reads its parameter list. -/
structure FuncExpr where
  parameters : List FnExprParam := []
deriving DecidableEq, Repr

/-- An assignment statement target (name and range). -/
structure AssignmentStmt where
  name : String
  nameRange : SrcRange := {}
deriving DecidableEq, Repr

/-- Whether a file is a script file or an XML component descriptor
(`isBrsFile` / `isXmlFile`). -/
inductive FileKind where
  | brs
  | xml
deriving DecidableEq, Repr

/-- The diagnostics the validator can emit.  Each constructor carries the
payload the source passes to the corresponding `DiagnosticMessages` factory
plus the anchoring `range` and the `fid` of the diagnostic's `file`. -/
inductive Diag where
  | mismatchArgumentCount (expectedText : String) (argCount : Nat) (range : SrcRange) (fid : Nat)
  | callToUnknownFunction (name : String) (scopeName : String) (range : SrcRange) (fid : Nat)
  | duplicateFunctionImplementation (name : String) (scopeName : String) (range : SrcRange) (fid : Nat)
  | overridesAncestorFunction (name : String) (scopeName : String)
      (ancestorPkgPath : String) (ancestorScopeName : String) (range : SrcRange) (fid : Nat)
  | scopeFunctionShadowedByBuiltInFunction (range : SrcRange) (fid : Nat)
  | functionCannotHaveSameNameAsClass (name : String) (range : SrcRange) (fid : Nat)
  | localVarFunctionShadowsParentFunction (kindLabel : String) (range : SrcRange) (fid : Nat)
  | localVarShadowedByScopedFunction (range : SrcRange) (fid : Nat)
  | localVarSameNameAsClass (className : String) (range : SrcRange) (fid : Nat)
  | parameterMayNotHaveSameNameAsNamespace (name : String) (range : SrcRange) (fid : Nat)
  | variableMayNotHaveSameNameAsNamespace (name : String) (range : SrcRange) (fid : Nat)
  | scriptSrcCannotBeEmpty (range : SrcRange) (fid : Nat)
  | referencedFileDoesNotExist (range : SrcRange) (fid : Nat)
  | scriptImportCaseMismatch (canonicalPkgPath : String) (range : SrcRange) (fid : Nat)
  | classValidatorDiag (code : Nat)
deriving DecidableEq, Repr

/-- A script import record (`interfaces.FileReference`): the imported
`pkgPath`, the literal source `text`, the range of the path, and the file
holding the import (`sourceFile`, modelled by its fid). -/
structure FileReference where
  pkgPath : String
  text : String := ""
  filePathRange : SrcRange := {}
  sourceFileFid : Nat := 0
deriving DecidableEq, Repr

/-- A parsed file as observed by `Scope` (`interfaces.BscFile` plus the
`parser.references` lists the validator reads).  `fid` models JS object
identity.  `fileDiagnostics` models the collaborator call
`file.getDiagnostics()` (spec section 6: per-own-file diagnostics merged by
`Scope.getDiagnostics`). -/
structure BscFile where
  fid : Nat
  pkgPath : String := ""
  pathAbsolute : String := ""
  extension : String := ""
  hasTypedef : Bool := false
  kind : FileKind := .brs
  callables : List Callable := []
  functionCalls : List FunctionCall := []
  functionScopes : List FunctionScope := []
  functionExpressions : List FuncExpr := []
  assignmentStatements : List AssignmentStmt := []
  namespaceStatements : List NamespaceStmt := []
  classStatements : List ClassStmt := []
  ownScriptImports : List FileReference := []
  scriptTagImports : List FileReference := []
  fileDiagnostics : List Diag := []
deriving DecidableEq, Repr

/-- Modelled from the spec: the Program file provider (spec section 6), a
finite map `pkgPath → BscFile` for `getFileByPkgPath` and `name → component
file` for `getComponent`.  Neither is part of the provided sources. -/
structure ProgramModel where
  files : List (String × BscFile) := []
  components : List (String × BscFile) := []
deriving DecidableEq, Repr

/-- Modelled from the spec: `Program.getFileByPkgPath(pkgPath) → BscFile | none`. -/
def ProgramModel.getFileByPkgPath (prog : ProgramModel) (pkgPath : String) : Option BscFile :=
  (prog.files.find? (fun e => e.1 == pkgPath)).map (·.2)

/-- Modelled from the spec: `Program.getComponent(name) → { file } | none`;
the component record is modelled by its file. -/
def ProgramModel.getComponent (prog : ProgramModel) (name : String) : Option BscFile :=
  (prog.components.find? (fun e => e.1 == name)).map (·.2)

/-! ## DependencyGraph (modelled from the spec, section 4.1)

The DependencyGraph implementation is not among the provided sources; the
spec says `getAllDependencies(key)` returns the transitive dependency set of
`key`, deduplicated, in a stable traversal order.  We model the graph as an
edge list and the query as a fuelled depth-first traversal that records each
node the first time it is reached. -/

/-- The direct successors of `key` in the dependency graph, in edge order. -/
def directDeps (edges : List (String × String)) (key : String) : List String :=
  (edges.filter (fun e => e.1 == key)).map (·.2)

/-- Fuelled depth-first traversal: `frontier` is the work list, `visited` the
accumulated result.  A node already in `visited` is skipped, so the result
never repeats a node. -/
def closureAux (edges : List (String × String)) :
    Nat → List String → List String → List String
  | 0, _, visited => visited
  | _ + 1, [], visited => visited
  | fuel + 1, x :: rest, visited =>
    if x ∈ visited then
      closureAux edges fuel rest visited
    else
      closureAux edges fuel (directDeps edges x ++ rest) (visited ++ [x])

/-- Modelled from the spec: `DependencyGraph.getAllDependencies(key)` —
transitive, deduplicated, stable order (spec section 4.1).  The fuel bounds
the traversal work: each of at most `edges.length + 1` node expansions adds
at most `edges.length` frontier entries. -/
def getAllDependencies (edges : List (String × String)) (key : String) : List String :=
  closureAux edges ((edges.length + 1) * (edges.length + 1) + edges.length + 1)
    (directDeps edges key) []

/-! ## Scope: file enumeration (source lines 141-188, 244-270) -/

/-- The identity of a `Scope` object: its `name` and `dependencyGraphKey`
constructor arguments. -/
structure ScopeRec where
  name : String
  dependencyGraphKey : String
deriving DecidableEq, Repr

/-- Models the malformed regex replace on source line 174,
`dependency.replace(/$component:/, '')`: the pattern anchors `$` before
literal text, so it can never match and the replace returns its input
unchanged. -/
def jsReplaceDollarComponent (s : String) : String := s

/-- The per-dependency resolution of `Scope.getAllFiles` (source lines
171-183): a dependency with the `component:` prefix is resolved through
`getComponent` (loaded components are pushed via their file), any other
through `getFileByPkgPath`. -/
def resolveDependency (prog : ProgramModel) (dependency : String) : Option BscFile :=
  if jsStartsWith dependency "component:" then
    prog.getComponent (jsReplaceDollarComponent dependency)
  else
    prog.getFileByPkgPath dependency

/-- The body of `Scope.getAllFiles` (source lines 167-188) applied to an
already-computed dependency list: resolve each dependency in order, pushing
the resolved file and dropping unresolved entries.  (The surrounding
`cache.getOrAdd` wrapper is modelled in the stateful section below.) -/
def computeAllFiles (prog : ProgramModel) (dependencies : List String) : List BscFile :=
  dependencies.foldl (fun result dependency =>
    match resolveDependency prog dependency with
    | some file => result ++ [file]
    | none => result) []

/-- `Scope.getAllFiles` (source lines 167-188): the files resolved from
`dependencyGraph.getAllDependencies(this.dependencyGraphKey)`. -/
def Scope.getAllFiles (prog : ProgramModel) (edges : List (String × String))
    (sc : ScopeRec) : List BscFile :=
  computeAllFiles prog (getAllDependencies edges sc.dependencyGraphKey)

/-- `Scope.getOwnFiles` (source lines 158-161).  Its own doc comment says
"Excludes files from ancestor scopes", but the body returns
`this.getAllFiles()` unchanged. -/
def Scope.getOwnFiles (prog : ProgramModel) (edges : List (String × String))
    (sc : ScopeRec) : List BscFile :=
  Scope.getAllFiles prog edges sc

/-- `Scope.enumerateAllFiles` (source lines 247-256) collects the non-typedef
files of `getAllFiles`; modelled as the list the callback is invoked on. -/
def Scope.enumerateAllFilesList (prog : ProgramModel) (edges : List (String × String))
    (sc : ScopeRec) : List BscFile :=
  (Scope.getAllFiles prog edges sc).filter (fun file => !file.hasTypedef)

/-- `Scope.enumerateOwnFiles` (source lines 261-270), as the list the
callback is invoked on. -/
def Scope.enumerateOwnFilesList (prog : ProgramModel) (edges : List (String × String))
    (sc : ScopeRec) : List BscFile :=
  (Scope.getOwnFiles prog edges sc).filter (fun file => !file.hasTypedef)

/-! ## `Scope.isKnownNamespace` (source lines 108-120) -/

/-- The callback passed to `enumerateAllFiles` inside `isKnownNamespace`
(source lines 111-118): scans the file's namespace statements and returns
true on the first whose lowered full name equals the query or extends it by
a dot. -/
def isKnownNamespaceCallback (file : BscFile) (namespaceNameLower : String) : Bool :=
  file.namespaceStatements.any (fun ns =>
    let loopNamespaceNameLower := jsToLower ns.name
    loopNamespaceNameLower == namespaceNameLower ||
      jsStartsWith loopNamespaceNameLower (namespaceNameLower ++ "."))

/-- `Scope.isKnownNamespace` (source lines 108-120).  The TS `return true`
on line 115 returns from the arrow-function callback handed to
`enumerateAllFiles`, which discards every callback result; control always
falls through to the method's final `return false` on line 119.  The
discarded callback results are kept here as `_callbackResults` to mirror the
source. -/
def Scope.isKnownNamespace (prog : ProgramModel) (edges : List (String × String))
    (sc : ScopeRec) (namespaceName : String) : Bool :=
  let namespaceNameLower := jsToLower namespaceName
  let _callbackResults :=
    (Scope.enumerateAllFilesList prog edges sc).map
      (fun file => isKnownNamespaceCallback file namespaceNameLower)
  false

/-! ## Callable map (`util.getCallableContainersByLowerName`, spec section 4.3.1 step 5)

The `util` helper is not among the provided sources.  Modelled from the
spec: "Build `callableContainerMap`: lowercase-name → ordered list of
containers (preserving sort order)", i.e. a JS `Map` keyed by
`callable.getName` lowered.  We model a JS `Map` as an insertion-ordered
association list with `get`/`has`/`set`. -/

/-- JS `Map.get`: the value of the first (unique) entry with this key. -/
def mapGet (m : List (String × α)) (k : String) : Option α :=
  (m.find? (fun e => e.1 == k)).map (·.2)

/-- JS `Map.has`. -/
def mapHas (m : List (String × α)) (k : String) : Bool :=
  m.any (fun e => e.1 == k)

/-- JS `Map.set`: overwrite in place when the key exists, else append. -/
def mapSet (m : List (String × α)) (k : String) (v : α) : List (String × α) :=
  if mapHas m k then m.map (fun e => if e.1 == k then (k, v) else e)
  else m ++ [(k, v)]

/-- Modelled from the spec: `util.getCallableContainersByLowerName` groups
the (already sorted) containers by the lowered callable name, preserving
both the first-occurrence key order and the per-key container order. -/
def getCallableContainersByLowerName (callables : List CallableContainer) :
    List (String × List CallableContainer) :=
  callables.foldl (fun m container =>
    let lowerName := jsToLower container.callable.name
    match mapGet m lowerName with
    | some existing => mapSet m lowerName (existing ++ [container])
    | none => mapSet m lowerName [container]) []

/-! ## Arity check (`diagnosticDetectFunctionCallsWithWrongParamCount`,
source lines 529-561) -/

/-- The parameter-count loop of source lines 539-548: `maxParams` counts all
parameters, `minParams` those with `isOptional === false`. -/
def minMaxParams (params : List Param) : Nat × Nat :=
  params.foldl (fun counts param =>
    (if param.isOptional = false then counts.1 + 1 else counts.1, counts.2 + 1))
    (0, 0)

/-- The display payload of source line 551:
`minParams === maxParams ? maxParams : `${minParams}-${maxParams}``. -/
def minMaxParamsText (minParams maxParams : Nat) : String :=
  if minParams = maxParams then toString maxParams
  else s!"{minParams}-{maxParams}"

/-- `Scope.diagnosticDetectFunctionCallsWithWrongParamCount` (source lines
529-561): for each call, look up the lowered name in the callable map, take
the first container, and emit a mismatch diagnostic when the argument count
falls outside `[minParams, maxParams]`. -/
def diagnosticDetectFunctionCallsWithWrongParamCount (file : BscFile)
    (callableContainersByLowerName : List (String × List CallableContainer)) : List Diag :=
  file.functionCalls.foldl (fun diagnostics expCall =>
    let callableContainersWithThisName :=
      mapGet callableContainersByLowerName (jsToLower expCall.name)
    match callableContainersWithThisName.bind List.head? with
    | some knownCallableContainer =>
      let counts := minMaxParams knownCallableContainer.callable.params
      if expCall.argCount > counts.2 || expCall.argCount < counts.1 then
        diagnostics ++ [Diag.mismatchArgumentCount
          (minMaxParamsText counts.1 counts.2) expCall.argCount expCall.nameRange file.fid]
      else diagnostics
    | none => diagnostics) []

/-! ## Unknown-call check (`diagnosticDetectCallsToUnknownFunctions`,
source lines 634-667) -/

/-- Modelled from the spec: `FunctionScope.getVariableByName` — the local
variable with the given (case-insensitive) name, a `BscFile` collaborator
not among the provided sources (spec section 4.3.4: "If a local variable
with that name exists, the call is assumed satisfied"). -/
def FunctionScope.getVariableByName (scope : FunctionScope) (name : String) : Option Variable :=
  scope.variableDeclarations.find? (fun v => jsToLower v.name == jsToLower name)

/-- Modelled from the spec: `BscFile.getFunctionScopeAtPosition` — the
innermost function scope at the call site (spec section 4.3.4); the
position-based resolution is carried by the call record's
`functionScopeIdx`. -/
def BscFile.getFunctionScopeAtPosition (file : BscFile) (call : FunctionCall) :
    Option FunctionScope :=
  call.functionScopeIdx.bind (fun i => file.functionScopes[i]?)

/-- `Scope.diagnosticDetectCallsToUnknownFunctions` (source lines 634-667):
skip `super` in `.bs` files; a call whose enclosing function scope has a
same-named variable is assumed satisfied; otherwise emit
`callToUnknownFunction` when the callable map yields no first container. -/
def diagnosticDetectCallsToUnknownFunctions (scopeName : String) (file : BscFile)
    (callablesByLowerName : List (String × List CallableContainer)) : List Diag :=
  file.functionCalls.foldl (fun diagnostics expCall =>
    let lowerName := jsToLower expCall.name
    if file.extension == ".bs" && lowerName == "super" then
      diagnostics
    else
      let scope := file.getFunctionScopeAtPosition expCall
      if (scope.bind (fun s => s.getVariableByName lowerName)).isSome then
        diagnostics
      else
        let knownCallable := (mapGet callablesByLowerName lowerName).bind List.head?
        if knownCallable.isNone then
          diagnostics ++ [Diag.callToUnknownFunction expCall.name scopeName
            expCall.nameRange file.fid]
        else diagnostics) []

/-! ## Duplicate & override detection
(`diagnosticFindDuplicateFunctionDeclarations`, source lines 673-739) -/

/-- The range adjustment of source lines 728-733: `util.createRange(start.line,
start.character, start.line, end.character)`. -/
def duplicateDiagRange (r : SrcRange) : SrcRange :=
  { startLine := r.startLine, startCharacter := r.startCharacter,
    endLine := r.startLine, endCharacter := r.endCharacter }

/-- The per-name partition of source lines 677-693: containers surfaced by
the global scope, by the validating scope itself (`ownSid`), and by
non-global ancestor scopes. -/
def ownCallablesOf (ownSid globalSid : Nat) (containers : List CallableContainer) :
    List CallableContainer :=
  containers.filter (fun c => c.scope.sid ≠ globalSid ∧ c.scope.sid = ownSid)

/-- Non-global containers from scopes other than the validating one. -/
def ancestorNonGlobalCallablesOf (ownSid globalSid : Nat)
    (containers : List CallableContainer) : List CallableContainer :=
  containers.filter (fun c => c.scope.sid ≠ globalSid ∧ c.scope.sid ≠ ownSid)

/-- The override-info emission of source lines 696-718 for one name group:
when the scope has own callables and a non-global ancestor has the name too,
each own callable (except the name `init`) gets an `overridesAncestorFunction`
info diagnostic referencing the last ancestor container, unless that
ancestor's callable lives in the same file as the own callable. -/
def overrideDiagsForGroup (ownSid globalSid : Nat) (lowerName : String)
    (containers : List CallableContainer) : List Diag :=
  let ownCallables := ownCallablesOf ownSid globalSid containers
  let ancestorNonGlobalCallables := ancestorNonGlobalCallablesOf ownSid globalSid containers
  if 0 < ownCallables.length ∧ 0 < ancestorNonGlobalCallables.length then
    ownCallables.foldl (fun diagnostics container =>
      if lowerName ≠ "init" then
        match ancestorNonGlobalCallables.getLast? with
        | some shadowedCallable =>
          if shadowedCallable.callable.file.fid = container.callable.file.fid then
            diagnostics
          else
            diagnostics ++ [Diag.overridesAncestorFunction
              container.callable.name container.scope.name
              shadowedCallable.callable.file.pkgPath shadowedCallable.scope.name
              container.callable.nameRange container.callable.file.fid]
        | none => diagnostics
      else diagnostics) []
  else []

/-- The duplicate-error emission of source lines 721-737 for one name group:
when the scope itself surfaces two or more callables with the name, each of
them gets a `duplicateFunctionImplementation` error diagnostic. -/
def duplicateDiagsForGroup (ownSid globalSid : Nat)
    (containers : List CallableContainer) : List Diag :=
  let ownCallables := ownCallablesOf ownSid globalSid containers
  if 1 < ownCallables.length then
    ownCallables.map (fun callableContainer =>
      Diag.duplicateFunctionImplementation callableContainer.callable.name
        callableContainer.scope.name
        (duplicateDiagRange callableContainer.callable.nameRange)
        callableContainer.callable.file.fid)
  else []

/-- `Scope.diagnosticFindDuplicateFunctionDeclarations` (source lines
673-739): for each name group of the callable map, push the override info
diagnostics and then the duplicate error diagnostics. -/
def diagnosticFindDuplicateFunctionDeclarations (ownSid globalSid : Nat)
    (callableContainersByLowerName : List (String × List CallableContainer)) : List Diag :=
  callableContainersByLowerName.foldl (fun diagnostics entry =>
    diagnostics
      ++ overrideDiagsForGroup ownSid globalSid entry.1 entry.2
      ++ duplicateDiagsForGroup ownSid globalSid entry.2) []

/-! ## Script-import validation (`diagnosticValidateScriptImportPaths`,
source lines 741-800) -/

/-- `Scope.getFileByRelativePath` (source lines 793-800): the first of the
scope's files whose `pkgPath` matches case-insensitively. -/
def getFileByRelativePath (allFiles : List BscFile) (relativePath : String) : Option BscFile :=
  allFiles.find? (fun file => jsToLower file.pkgPath == jsToLower relativePath)

/-- `Scope.getOwnScriptImports` (source lines 744-754): the script imports of
every own non-typedef file (`ownScriptImports` for script files,
`scriptTagImports` for XML files). -/
def getOwnScriptImports (ownFiles : List BscFile) : List FileReference :=
  (ownFiles.filter (fun file => !file.hasTypedef)).foldl (fun result file =>
    match file.kind with
    | .brs => result ++ file.ownScriptImports
    | .xml => result ++ file.scriptTagImports) []

/-- `Scope.diagnosticValidateScriptImportPaths` (source lines 759-787):
resolve each import against the scope's files; emit `scriptSrcCannotBeEmpty`
or `referencedFileDoesNotExist` when unresolved (depending on whether the
trimmed import text is empty), and `scriptImportCaseMismatch` when resolved
with different casing. -/
def diagnosticValidateScriptImportPaths (ownFiles allFiles : List BscFile) : List Diag :=
  (getOwnScriptImports ownFiles).foldl (fun diagnostics scriptImport =>
    match getFileByRelativePath allFiles scriptImport.pkgPath with
    | none =>
      if (jsTrim scriptImport.text).length = 0 then
        diagnostics ++ [Diag.scriptSrcCannotBeEmpty
          scriptImport.filePathRange scriptImport.sourceFileFid]
      else
        diagnostics ++ [Diag.referencedFileDoesNotExist
          scriptImport.filePathRange scriptImport.sourceFileFid]
    | some referencedFile =>
      if scriptImport.pkgPath ≠ referencedFile.pkgPath then
        diagnostics ++ [Diag.scriptImportCaseMismatch referencedFile.pkgPath
          scriptImport.filePathRange scriptImport.sourceFileFid]
      else diagnostics) []

/-! ## Class map (`getClassMap`, source lines 69-83) and namespace lookup keys
(`buildNamespaceLookup`, source lines 295-345) -/

/-- The factory of `Scope.getClassMap` (source lines 69-83): over all
non-typedef files, map each class's lowered full name (when defined and
non-empty, mirroring JS truthiness of `getName(...)?.toLowerCase()`) to the
class statement; later entries overwrite earlier ones as `Map.set` does. -/
def getClassMap (allFiles : List BscFile) : List (String × ClassStmt) :=
  (allFiles.filter (fun file => !file.hasTypedef)).foldl (fun m file =>
    file.classStatements.foldl (fun m cls =>
      match cls.name with
      | some nm =>
        let lowerClassName := jsToLower nm
        if lowerClassName ≠ "" then mapSet m lowerClassName cls else m
      | none => m) m) []

/-- The dotted prefixes of a namespace name, in declaration order: for
`A.B.C` the list `[A, A.B, A.B.C]` (the key-insertion loop of source lines
301-319). -/
def namespaceNamePrefixes (name : String) : List String :=
  let parts := (name.data.splitOn '.').map (fun cs => (⟨cs⟩ : String))
  (List.range parts.length).map (fun i =>
    String.intercalate "." (parts.take (i + 1)))

/-- The key set of `Scope.buildNamespaceLookup` (source lines 295-345): the
lowered dotted prefixes of every namespace declared in a non-typedef file.
The collision check below only consults key membership, so the container
payloads are not modelled. -/
def namespaceLookupKeys (allFiles : List BscFile) : List String :=
  (allFiles.filter (fun file => !file.hasTypedef)).foldl (fun keys file =>
    file.namespaceStatements.foldl (fun keys ns =>
      keys ++ (namespaceNamePrefixes ns.name).map jsToLower) keys) []

/-! ## Shadowing and collision checks (source lines 430-504, 563-627) -/

/-- `isFunctionType` from `astUtils/reflection` applied to the modelled type. -/
def isFunctionType (t : BscTypeKind) : Bool :=
  match t with
  | .functionType => true
  | .otherType => false

/-- `Scope.diagnosticDetectShadowedLocalVars` (source lines 568-627): for
every variable of every function scope, flag function-typed locals that
shadow a stdlib or scope function, and non-function locals that share a name
with a scope function or a class (stdlib names are allowed for them). -/
def diagnosticDetectShadowedLocalVars (file : BscFile)
    (callableContainerMap : List (String × List CallableContainer))
    (classMap : List (String × ClassStmt)) (globalCallableNames : List String) : List Diag :=
  file.functionScopes.foldl (fun diagnostics scope =>
    scope.variableDeclarations.foldl (fun diagnostics varDeclaration =>
      let lowerVarName := jsToLower varDeclaration.name
      if isFunctionType varDeclaration.type then
        if globalCallableNames.contains lowerVarName then
          diagnostics ++ [Diag.localVarFunctionShadowsParentFunction "stdlib"
            varDeclaration.nameRange file.fid]
        else if mapHas callableContainerMap lowerVarName then
          diagnostics ++ [Diag.localVarFunctionShadowsParentFunction "scope"
            varDeclaration.nameRange file.fid]
        else diagnostics
      else if !globalCallableNames.contains lowerVarName then
        if mapHas callableContainerMap lowerVarName then
          diagnostics ++ [Diag.localVarShadowedByScopedFunction
            varDeclaration.nameRange file.fid]
        else
          match mapGet classMap lowerVarName with
          | some cls =>
            diagnostics ++ [Diag.localVarSameNameAsClass (cls.name.getD "")
              varDeclaration.nameRange file.fid]
          | none => diagnostics
      else diagnostics) diagnostics) []

/-- `Scope.diagnosticDetectFunctionCollisions` (source lines 478-504): a
declared callable whose (defined, non-empty) name matches a stdlib function
or a known class gets the corresponding diagnostic; both can fire. -/
def diagnosticDetectFunctionCollisions (file : BscFile)
    (classMap : List (String × ClassStmt)) (globalCallableNames : List String) : List Diag :=
  file.callables.foldl (fun diagnostics func =>
    match func.fullName with
    | some funcName =>
      let lowerFuncName := jsToLower funcName
      if lowerFuncName ≠ "" then
        (diagnostics
          ++ (if globalCallableNames.contains lowerFuncName then
                [Diag.scopeFunctionShadowedByBuiltInFunction func.nameRange file.fid]
              else []))
          ++ (if mapHas classMap lowerFuncName then
                [Diag.functionCannotHaveSameNameAsClass funcName func.nameRange file.fid]
              else [])
      else diagnostics
    | none => diagnostics) []

/-- `Scope.detectVariableNamespaceCollisions` (source lines 430-473): flag
function parameters and assignment targets whose lowered name is a key of
the namespace lookup.  (The diagnostic's `relatedInformation` location is a
payload detail not modelled.) -/
def detectVariableNamespaceCollisions (file : BscFile)
    (nsLookupKeys : List String) : List Diag :=
  (file.functionExpressions.foldl (fun diagnostics func =>
    func.parameters.foldl (fun diagnostics param =>
      if nsLookupKeys.contains (jsToLower param.name) then
        diagnostics ++ [Diag.parameterMayNotHaveSameNameAsNamespace param.name
          param.nameRange file.fid]
      else diagnostics) diagnostics) [])
  ++ file.assignmentStatements.foldl (fun diagnostics assignment =>
    if nsLookupKeys.contains (jsToLower assignment.name) then
      diagnostics ++ [Diag.variableMayNotHaveSameNameAsNamespace assignment.name
        assignment.nameRange file.fid]
    else diagnostics) []

/-! ## Validation state machine (`validate`, `invalidate`, `getDiagnostics`;
source lines 360-428, 194-210) -/

/-- The cache slots the source stores through `cache.getOrAdd`
('namespaceLookup', 'classMap', 'getAllFiles'); `none` models an empty
slot. -/
structure CacheState where
  namespaceLookup : Option (List String) := none
  classMap : Option (List (String × ClassStmt)) := none
  allFiles : Option (List BscFile) := none
deriving DecidableEq, Repr

/-- The mutable state of a `Scope`: the `isValidated` flag, the diagnostics
list, and the cache. -/
structure ScopeState where
  isValidated : Bool := false
  diagnostics : List Diag := []
  cache : CacheState := {}
deriving DecidableEq, Repr

/-- Everything one scope's validation pipeline reads from its surroundings:
the scope's identity, the dependency graph and program (spec-modelled
collaborators), the stdlib name oracle (`globalCallableMap`, a collaborator),
and the diagnostics contributed by the class validator collaborator
(`BsClassValidator`, spec section 4.3.1 step 9). -/
structure ScopeEnv where
  scopeId : ScopeId
  globalSid : Nat
  dependencyGraphKey : String
  edges : List (String × String) := []
  prog : ProgramModel := {}
  globalCallableNames : List String := []
  classValidatorDiags : List Diag := []
deriving Repr

/-- The scope record of an environment. -/
def ScopeEnv.scopeRec (env : ScopeEnv) : ScopeRec :=
  { name := env.scopeId.name, dependencyGraphKey := env.dependencyGraphKey }

/-- The pure value the `getAllFiles` cache slot holds for this environment. -/
def ScopeEnv.allFiles (env : ScopeEnv) : List BscFile :=
  Scope.getAllFiles env.prog env.edges env.scopeRec

/-- Own files of the environment (`getOwnFiles`, which the source implements
as `getAllFiles`). -/
def ScopeEnv.ownFiles (env : ScopeEnv) : List BscFile :=
  Scope.getOwnFiles env.prog env.edges env.scopeRec

/-- `Scope.getOwnCallables` (source lines 276-290): the callables of every
own non-typedef file, each paired with this scope. -/
def ScopeEnv.getOwnCallables (env : ScopeEnv) : List CallableContainer :=
  ((env.ownFiles.filter (fun file => !file.hasTypedef)).foldl (fun result file =>
    result ++ file.callables) []).map (fun callable =>
      { callable := callable, scope := env.scopeId })

/-- The comparator of source lines 382-389: by the declaring file's absolute
path, then by callable name (`localeCompare` modelled as lexicographic
string order). -/
def callableLE (a b : CallableContainer) : Bool :=
  if a.callable.file.pathAbsolute = b.callable.file.pathAbsolute then
    decide (a.callable.name ≤ b.callable.name)
  else decide (a.callable.file.pathAbsolute ≤ b.callable.file.pathAbsolute)

/-- Insert into a sorted list, keeping earlier-inserted equals first (JS
`Array.sort` is stable). -/
def orderedInsert (a : CallableContainer) : List CallableContainer → List CallableContainer
  | [] => [a]
  | b :: l => if callableLE b a then b :: orderedInsert a l else a :: b :: l

/-- The stable sort of source lines 382-389. -/
def sortCallables (callables : List CallableContainer) : List CallableContainer :=
  callables.foldr orderedInsert []

/-- The diagnostics produced by one run of the validation pipeline of
`Scope.validate` (source lines 376-415) for a scope whose full callable list
is `allCallables`: duplicates first, then script-import checks, then the
class validator's diagnostics, then the five per-file checks for each own
non-typedef file, in source order.  (The plugin bus handlers are modelled as
pure observers.) -/
def runPipeline (env : ScopeEnv) (allCallables : List CallableContainer) : List Diag :=
  let callables := sortCallables allCallables
  let callableContainerMap := getCallableContainersByLowerName callables
  let allFiles := env.allFiles
  let ownFiles := env.ownFiles
  let classMap := getClassMap allFiles
  let nsKeys := namespaceLookupKeys allFiles
  diagnosticFindDuplicateFunctionDeclarations env.scopeId.sid env.globalSid
      callableContainerMap
    ++ diagnosticValidateScriptImportPaths ownFiles allFiles
    ++ env.classValidatorDiags
    ++ (ownFiles.filter (fun file => !file.hasTypedef)).foldl (fun diagnostics file =>
      diagnostics
        ++ diagnosticDetectCallsToUnknownFunctions env.scopeId.name file callableContainerMap
        ++ diagnosticDetectFunctionCallsWithWrongParamCount file callableContainerMap
        ++ diagnosticDetectShadowedLocalVars file callableContainerMap classMap
            env.globalCallableNames
        ++ diagnosticDetectFunctionCollisions file classMap env.globalCallableNames
        ++ detectVariableNamespaceCollisions file nsKeys) []

/-- The cache contents after a pipeline run: `getAllFiles` is always
populated (reached through `getAllCallables` on source line 379);
`classMap` and `namespaceLookup` are populated when the per-file loop ran at
least once (they are first touched inside it). -/
def cacheAfterPipeline (env : ScopeEnv) : CacheState :=
  let touchedPerFile := (env.ownFiles.filter (fun file => !file.hasTypedef)).length ≠ 0
  { allFiles := some env.allFiles,
    classMap := if touchedPerFile then some (getClassMap env.allFiles) else none,
    namespaceLookup := if touchedPerFile then some (namespaceLookupKeys env.allFiles) else none }

/-- `Scope.validate` for a parentless scope (the global scope; source lines
360-419 with the parent branch of lines 369-375 vacuous): a no-op when
already validated and not forced, otherwise replace the diagnostics with a
fresh pipeline run and set `isValidated`. -/
def validateScope (env : ScopeEnv) (s : ScopeState) (force : Bool) : ScopeState :=
  if s.isValidated && !force then s
  else
    { isValidated := true,
      diagnostics := runPipeline env env.getOwnCallables,
      cache := cacheAfterPipeline env }

/-- `Scope.validate` for a scope whose parent is the global scope — the only
shape `Scope.getParentScope` (source lines 127-139) produces for the base
class.  Source lines 360-419: return immediately when validated and not
forced; otherwise validate the parent first when it is not yet valid, then
rebuild this scope's diagnostics from the pipeline, whose callable list is
`getAllCallables()` = own callables ++ the parent's (source lines 219-227). -/
def validateTwo (parentEnv env : ScopeEnv) (states : ScopeState × ScopeState)
    (force : Bool) : ScopeState × ScopeState :=
  if states.2.isValidated && !force then states
  else
    let parentState :=
      if states.1.isValidated = false then validateScope parentEnv states.1 force
      else states.1
    (parentState,
      { isValidated := true,
        diagnostics := runPipeline env (env.getOwnCallables ++ parentEnv.getOwnCallables),
        cache := cacheAfterPipeline env })

/-- `Scope.invalidate` (source lines 424-428): clear the `isValidated` flag
and every cache slot; the diagnostics list is not touched. -/
def invalidate (s : ScopeState) : ScopeState :=
  { s with isValidated := false, cache := {} }

/-- `cache.getOrAdd('getAllFiles', ...)` as used by `Scope.getAllFiles`
(source line 168): return the cached list when present, otherwise compute,
store and return it. -/
def getAllFilesCached (env : ScopeEnv) (s : ScopeState) : List BscFile × ScopeState :=
  match s.cache.allFiles with
  | some v => (v, s)
  | none =>
    let v := env.allFiles
    (v, { s with cache := { s.cache with allFiles := some v } })

/-- `Scope.getDiagnostics` (source lines 194-210): this scope's diagnostics
followed by each own non-typedef file's diagnostics, with the host's
suppression predicate (`util.diagnosticIsSuppressed`, a collaborator)
filtered out.  Returns the value together with the post-read state (the
enumeration populates the `getAllFiles` cache slot). -/
def getDiagnostics (env : ScopeEnv) (suppressed : Diag → Bool) (s : ScopeState) :
    List Diag × ScopeState :=
  let read := getAllFilesCached env s
  let ownFiles := read.1
  let diagnosticLists :=
    s.diagnostics :: (ownFiles.filter (fun file => !file.hasTypedef)).map (·.fileDiagnostics)
  (diagnosticLists.flatten.filter (fun d => !suppressed d), read.2)

/-! ## Specification-side definitions

Each definition below restates a claim's words, for comparison with the
source embeddings above; none is derived from the source code. -/

/-- Is this diagnostic an overrides-ancestor info diagnostic? -/
def Diag.isOverridesAncestor : Diag → Bool
  | .overridesAncestorFunction .. => true
  | _ => false

/-- Is this diagnostic a duplicate-function-implementation error diagnostic? -/
def Diag.isDuplicateImpl : Diag → Bool
  | .duplicateFunctionImplementation .. => true
  | _ => false

/-- Follows the spec's words (claim C4, spec section 4.3.5): with
`minParams` the count of the first matching callable's non-optional
parameters and `maxParams` its total parameter count, a mismatch diagnostic
is emitted iff the call's argument count is strictly below `minParams` or
strictly above `maxParams`, displaying `max` when the two agree and
`min-max` otherwise. -/
def specMismatchArgDiag (callableContainersByLowerName : List (String × List CallableContainer))
    (file : BscFile) (call : FunctionCall) : Option Diag :=
  match (mapGet callableContainersByLowerName (jsToLower call.name)).bind List.head? with
  | none => none
  | some first =>
    let minParams := (first.callable.params.filter (fun p => !p.isOptional)).length
    let maxParams := first.callable.params.length
    if call.argCount < minParams ∨ maxParams < call.argCount then
      some (Diag.mismatchArgumentCount (minMaxParamsText minParams maxParams)
        call.argCount call.nameRange file.fid)
    else none

/-- Follows the spec's words (claim C5, spec section 4.3.2): for a name
group in which the scope itself surfaces at least one callable and at least
one non-global ancestor container exists, one overrides-ancestor info
diagnostic per own callable referencing the last container of the ordered
ancestor list — except when the name is `init`, and except for an own
callable declared in the same file as that last ancestor's callable. -/
def specOverrideDiagsForGroup (ownSid globalSid : Nat) (lowerName : String)
    (containers : List CallableContainer) : List Diag :=
  let own := ownCallablesOf ownSid globalSid containers
  let ancestors := ancestorNonGlobalCallablesOf ownSid globalSid containers
  match ancestors.getLast? with
  | some deepest =>
    if own ≠ [] ∧ lowerName ≠ "init" then
      own.filterMap (fun c =>
        if deepest.callable.file.fid = c.callable.file.fid then none
        else some (Diag.overridesAncestorFunction c.callable.name c.scope.name
          deepest.callable.file.pkgPath deepest.scope.name
          c.callable.nameRange c.callable.file.fid))
    else []
  | none => []

/-- Follows the spec's words (claim C6): with two or more own callables
under one lowercase name, exactly one duplicate-function-implementation
diagnostic per own callable; none when the scope has at most one. -/
def specDuplicateDiagsForGroup (ownSid globalSid : Nat)
    (containers : List CallableContainer) : List Diag :=
  let own := ownCallablesOf ownSid globalSid containers
  if 2 ≤ own.length then
    own.map (fun c => Diag.duplicateFunctionImplementation c.callable.name c.scope.name
      (duplicateDiagRange c.callable.nameRange) c.callable.file.fid)
  else []

/-- Follows the spec's words (claim C7, spec section 4.3.3): resolve the
script import by case-insensitive pkgPath against the scope's files; unresolved
with blank text → src-cannot-be-empty, unresolved otherwise →
referenced-file-does-not-exist, resolved with a pkgPath differing in casing
→ case mismatch carrying the resolved file's canonical pkgPath, resolved
with identical casing → no diagnostic. -/
def specScriptImportDiag (allFiles : List BscFile) (scriptImport : FileReference) : Option Diag :=
  match allFiles.find? (fun f => jsToLower f.pkgPath == jsToLower scriptImport.pkgPath) with
  | none =>
    if (jsTrim scriptImport.text).length = 0 then
      some (Diag.scriptSrcCannotBeEmpty scriptImport.filePathRange scriptImport.sourceFileFid)
    else
      some (Diag.referencedFileDoesNotExist scriptImport.filePathRange scriptImport.sourceFileFid)
  | some resolved =>
    if resolved.pkgPath ≠ scriptImport.pkgPath then
      some (Diag.scriptImportCaseMismatch resolved.pkgPath scriptImport.filePathRange
        scriptImport.sourceFileFid)
    else none

/-- Follows the spec's words (claim C8, spec section 4.3.4): a
call-to-unknown-function diagnostic carrying the scope's name is emitted iff
the call is not a `super` call in a `.bs` file, the innermost function scope
at the call site has no variable with the call's lowercase name (whatever
the variable's type), and no callable with that lowercase name exists in
the scope-wide callable map. -/
def specUnknownCallDiag (scopeName : String)
    (callablesByLowerName : List (String × List CallableContainer))
    (file : BscFile) (call : FunctionCall) : Option Diag :=
  let lowerName := jsToLower call.name
  if file.extension = ".bs" ∧ lowerName = "super" then none
  else if (match file.getFunctionScopeAtPosition call with
      | some scope => scope.variableDeclarations.any (fun v => jsToLower v.name == lowerName)
      | none => false) then none
  else if (mapGet callablesByLowerName lowerName).getD [] = [] then
    some (Diag.callToUnknownFunction call.name scopeName call.nameRange file.fid)
  else none

/-! ## Concrete sample data (for the concrete evaluations and witnesses) -/

/-- A file declaring the namespace `A.B.C`. -/
def sampleNsFile : BscFile :=
  { fid := 1, pkgPath := "source/main.bs", pathAbsolute := "/proj/source/main.bs",
    extension := ".bs", namespaceStatements := [{ name := "A.B.C" }],
    fileDiagnostics := [Diag.classValidatorDiag 7] }

/-- A program holding just `sampleNsFile`. -/
def sampleProg : ProgramModel := { files := [("source/main.bs", sampleNsFile)] }

/-- One dependency edge: the source scope's key depends on the file. -/
def sampleEdges : List (String × String) := [("scope:source", "source/main.bs")]

/-- The source scope over `sampleProg`. -/
def sampleScope : ScopeRec := { name := "source", dependencyGraphKey := "scope:source" }

/-- A file that is a direct dependency of the chain scope's key. -/
def chainFileA : BscFile :=
  { fid := 10, pkgPath := "source/a.brs", pathAbsolute := "/proj/source/a.brs" }

/-- A file reachable only through `chainFileA` (a script imported by it). -/
def chainFileB : BscFile :=
  { fid := 11, pkgPath := "source/lib/b.brs", pathAbsolute := "/proj/source/lib/b.brs" }

/-- A program holding the two chain files. -/
def chainProg : ProgramModel :=
  { files := [("source/a.brs", chainFileA), ("source/lib/b.brs", chainFileB)] }

/-- The scope key depends directly on `a.brs` only; `a.brs` depends on
`b.brs`. -/
def chainEdges : List (String × String) :=
  [("scope:source", "source/a.brs"), ("source/a.brs", "source/lib/b.brs")]

/-- The source scope over `chainProg`. -/
def chainScope : ScopeRec := { name := "source", dependencyGraphKey := "scope:source" }

/-- A sample environment over `sampleProg`, used by the stateful witnesses. -/
def sampleEnv : ScopeEnv :=
  { scopeId := { sid := 2, name := "source" }, globalSid := 0,
    dependencyGraphKey := "scope:source", edges := sampleEdges, prog := sampleProg }

/-- The spec's arity scenario: `sub greet(name, prefix="")` — one required
and one optional parameter. -/
def greetCallable : Callable :=
  { name := "greet", params := [{ isOptional := false }, { isOptional := true }],
    file := { fid := 0 } }

/-- A callable map surfacing only `greet`. -/
def greetMap : List (String × List CallableContainer) :=
  [("greet", [{ callable := greetCallable, scope := { sid := 1, name := "source" } }])]

/-- A file calling `greet("a","b","c")` — three arguments. -/
def greetCallFile : BscFile :=
  { fid := 0, functionCalls := [{ name := "greet", argCount := 3 }] }

/-- The spec's override scenario: child and parent scope both declare `init`. -/
def initContainers : List CallableContainer :=
  [{ callable := { name := "init", file := { fid := 3 } }, scope := { sid := 1, name := "child" } },
   { callable := { name := "init", file := { fid := 4 } }, scope := { sid := 2, name := "parent" } }]

/-- The spec's duplicate scenario: two `sub run()` declarations surfaced by
the same scope, in different files. -/
def runContainers : List CallableContainer :=
  [{ callable := { name := "run", file := { fid := 3 } }, scope := { sid := 1, name := "source" } },
   { callable := { name := "run", file := { fid := 4 } }, scope := { sid := 1, name := "source" } }]

/-- The spec's unknown-call scenario: `a.brs` calls `foo()` with no `foo`
declared anywhere. -/
def fooCallFile : BscFile :=
  { fid := 0, extension := ".brs", functionCalls := [{ name := "foo" }] }

/-- The spec's case-mismatch scenario: an XML file imports
`Pkg:/Lib/foo.brs` while the canonical pkgPath is `pkg:/lib/Foo.brs`. -/
def caseMismatchImporter : BscFile :=
  { fid := 0, kind := .xml,
    scriptTagImports := [{ pkgPath := "Pkg:/Lib/foo.brs", text := "Pkg:/Lib/foo.brs" }] }

/-- The canonical-casing file resolved by the case-mismatch scenario. -/
def caseMismatchTarget : BscFile := { fid := 1, pkgPath := "pkg:/lib/Foo.brs" }

/-- A sample scope state with a coherently populated cache and surviving
diagnostics, as left behind by a completed `validate()`. -/
def sampleState : ScopeState :=
  { isValidated := true,
    diagnostics := [Diag.classValidatorDiag 1],
    cache := { allFiles := some sampleEnv.allFiles } }

/-! # Theorems -/

/-- `Char.ofNat` at a valid code point round-trips through `toNat`. -/
theorem toNat_ofNat_valid {n : Nat} (h : n.isValidChar) : (Char.ofNat n).toNat = n := by
  rw [Char.ofNat, dif_pos h]
  simp [Char.ofNatAux, Char.toNat, UInt32.toNat, BitVec.toNat_ofNatLt]

/-- Lowering a character is idempotent. -/
theorem toLower_idem (c : Char) : Char.toLower (Char.toLower c) = Char.toLower c := by
  unfold Char.toLower
  by_cases h : c.toNat ≥ 65 ∧ c.toNat ≤ 90
  · rw [if_pos h]
    have ht : (Char.ofNat (c.toNat + 32)).toNat = c.toNat + 32 :=
      toNat_ofNat_valid (Or.inl (by omega))
    rw [if_neg]
    omega
  · rw [if_neg h, if_neg h]

/-- Lowering a string is idempotent. -/
theorem jsToLower_idem (s : String) : jsToLower (jsToLower s) = jsToLower s := by
  simp only [jsToLower, List.map_map]
  exact congrArg String.mk (List.map_congr_left (fun c _ => toLower_idem c))

/-- C1.  The claim says `isKnownNamespace` answers true for every declared
namespace path and each of its dotted prefixes.  The code does not: the
callback's `return true` is swallowed by `enumerateAllFiles`, so the method
returns false for every input — here witnessed on a scope whose (reachable,
non-typedef) file declares `A.B.C`, where the callback itself matches `a`,
`a.b` and `a.b.c`. -/
theorem isKnownNamespace_code_bug :
    (∀ (prog : ProgramModel) (edges : List (String × String)) (sc : ScopeRec) (name : String),
        Scope.isKnownNamespace prog edges sc name = false)
    ∧ sampleNsFile ∈ Scope.enumerateAllFilesList sampleProg sampleEdges sampleScope
    ∧ isKnownNamespaceCallback sampleNsFile (jsToLower "A") = true
    ∧ isKnownNamespaceCallback sampleNsFile (jsToLower "A.B") = true
    ∧ isKnownNamespaceCallback sampleNsFile (jsToLower "A.B.C") = true
    ∧ isKnownNamespaceCallback sampleNsFile (jsToLower "Other") = false :=
  ⟨fun _ _ _ _ => rfl, by decide, by decide, by decide, by decide, by decide⟩

/-- C2.  The claim says a file appears in `getOwnFiles()` iff it is a direct
dependency of the scope's dependency-graph key.  The code returns
`getAllFiles()`, the transitive dependency closure: on a graph where the
scope's key depends directly only on `a.brs`, which in turn depends on
`b.brs`, the file `b.brs` appears in `getOwnFiles()` although it is not a
direct dependency of the key. -/
theorem getOwnFiles_code_bug :
    chainFileB ∈ Scope.getOwnFiles chainProg chainEdges chainScope
    ∧ chainFileB.pkgPath ∉ directDeps chainEdges chainScope.dependencyGraphKey :=
  ⟨by decide, by decide⟩

/-- C9.  With the scope's dependency set and file contents (the
environments) unchanged, a second `validate()` without force observes
`isValidated = true` and returns without touching the parent's or the
scope's state: both scopes' diagnostics, caches and flags equal those after
a single `validate()`. -/
theorem validate_idempotent (parentEnv env : ScopeEnv) (states : ScopeState × ScopeState) :
    validateTwo parentEnv env (validateTwo parentEnv env states false) false
        = validateTwo parentEnv env states false
    ∧ (validateTwo parentEnv env states false).2.isValidated = true := by
  unfold validateTwo
  by_cases h : states.2.isValidated <;> simp [h]

/-- C10.  `invalidate()` resets `isValidated` and clears every cache slot
but leaves the scope's diagnostics list alone, so (whenever the cached file
list was coherent with the dependency set) `getDiagnostics()` observes the
same merged diagnostics before and after the invalidation. -/
theorem invalidate_keeps_diagnostics (env : ScopeEnv) (suppressed : Diag → Bool)
    (s : ScopeState)
    (hcache : s.cache.allFiles = none ∨ s.cache.allFiles = some env.allFiles) :
    (invalidate s).isValidated = false
    ∧ (invalidate s).cache = {}
    ∧ (invalidate s).diagnostics = s.diagnostics
    ∧ (getDiagnostics env suppressed (invalidate s)).1
        = (getDiagnostics env suppressed s).1 := by
  refine ⟨rfl, rfl, rfl, ?_⟩
  unfold getDiagnostics getAllFilesCached invalidate
  rcases hcache with h | h <;> simp [h]

/-- Witness for C10 at a concrete validated state whose cache is populated. -/
theorem invalidate_keeps_diagnostics_witness :
    (sampleState.cache.allFiles = none ∨ sampleState.cache.allFiles = some sampleEnv.allFiles)
    ∧ (getDiagnostics sampleEnv (fun _ => false) (invalidate sampleState)).1
        = (getDiagnostics sampleEnv (fun _ => false) sampleState).1 :=
  ⟨Or.inr rfl,
    (invalidate_keeps_diagnostics sampleEnv (fun _ => false) sampleState (Or.inr rfl)).2.2.2⟩

/-- The depth-first traversal never records a node twice. -/
theorem closureAux_nodup (edges : List (String × String)) :
    ∀ (fuel : Nat) (frontier visited : List String), visited.Nodup →
      (closureAux edges fuel frontier visited).Nodup := by
  intro fuel
  induction fuel with
  | zero => intro frontier visited h; simpa [closureAux] using h
  | succ n ih =>
    intro frontier visited h
    cases frontier with
    | nil => simpa [closureAux] using h
    | cons x rest =>
      by_cases hx : x ∈ visited
      · simpa [closureAux, hx] using ih rest visited h
      · have h2 : (visited ++ [x]).Nodup := by
          simp [List.nodup_append, h, List.disjoint_singleton, hx]
        simpa [closureAux, hx] using ih _ _ h2

/-- The dependency list of a key is deduplicated (spec section 4.1). -/
theorem getAllDependencies_nodup (edges : List (String × String)) (key : String) :
    (getAllDependencies edges key).Nodup :=
  closureAux_nodup edges _ _ _ List.nodup_nil

/-- A left fold that appends one optional element per item is a `filterMap`. -/
theorem foldl_push_eq_filterMap {α β : Type} (f : α → Option β) (step : List β → α → List β)
    (hstep : ∀ acc a, step acc a = match f a with | some b => acc ++ [b] | none => acc)
    (l : List α) (acc : List β) :
    l.foldl step acc = acc ++ l.filterMap f := by
  induction l generalizing acc with
  | nil => simp
  | cons a l ih => cases h : f a <;> simp [hstep, h, ih]

/-- `getAllFiles`'s resolution loop as a `filterMap` over the dependency list. -/
theorem computeAllFiles_eq_filterMap (prog : ProgramModel) (deps : List String) :
    computeAllFiles prog deps = deps.filterMap (resolveDependency prog) := by
  unfold computeAllFiles
  refine (foldl_push_eq_filterMap (resolveDependency prog) _ ?_ deps []).trans (by simp)
  intro acc a
  cases h : resolveDependency prog a <;> simp [h]

/-- When the program's file map is keyed by the stored file's `pkgPath` and
no component name carries the `component:` prefix, a resolved dependency's
file has exactly the dependency string as its `pkgPath`. -/
theorem resolveDependency_pkgPath (prog : ProgramModel)
    (hfiles : ∀ e ∈ prog.files, e.2.pkgPath = e.1)
    (hcomp : ∀ e ∈ prog.components, jsStartsWith e.1 "component:" = false)
    (d : String) (f : BscFile) (h : resolveDependency prog d = some f) :
    f.pkgPath = d := by
  unfold resolveDependency at h
  by_cases hd : jsStartsWith d "component:" = true
  · rw [if_pos hd] at h
    unfold ProgramModel.getComponent jsReplaceDollarComponent at h
    cases hfind : prog.components.find? (fun e => e.1 == d) with
    | none => rw [hfind] at h; simp at h
    | some pr =>
      have hp := List.find?_some hfind
      simp only [beq_iff_eq] at hp
      have hmem : pr ∈ prog.components := List.mem_of_find?_eq_some hfind
      have hc := hcomp pr hmem
      rw [hp] at hc
      exact absurd (hc.symm.trans hd) (by decide)
  · rw [if_neg hd] at h
    unfold ProgramModel.getFileByPkgPath at h
    cases hfind : prog.files.find? (fun e => e.1 == d) with
    | none => rw [hfind] at h; simp at h
    | some pr =>
      have hp := List.find?_some hfind
      simp only [beq_iff_eq] at hp
      have hmem : pr ∈ prog.files := List.mem_of_find?_eq_some hfind
      rw [hfind, Option.map_some'] at h
      rw [← Option.some.inj h, hfiles pr hmem, hp]

/-- The `pkgPath`s of the resolved files form a sub-sequence of the
dependency list they were resolved from. -/
theorem filterMap_pkgPath_sublist (prog : ProgramModel)
    (hfiles : ∀ e ∈ prog.files, e.2.pkgPath = e.1)
    (hcomp : ∀ e ∈ prog.components, jsStartsWith e.1 "component:" = false)
    (deps : List String) :
    ((deps.filterMap (resolveDependency prog)).map (fun f => f.pkgPath)).Sublist deps := by
  induction deps with
  | nil => simp
  | cons d rest ih =>
    cases h : resolveDependency prog d with
    | none => simpa [List.filterMap_cons, h] using ih.cons d
    | some f =>
      rw [List.filterMap_cons, h]
      simpa [resolveDependency_pkgPath prog hfiles hcomp d f h] using ih.cons₂ d

/-- C3.  `getAllFiles()` never lists two files with the same `pkgPath`, and
its order follows the dependency-graph traversal order of the scope's key:
the resolved `pkgPath`s are a sub-sequence of `getAllDependencies(key)`
(which is itself deduplicated).  The program's file map is assumed keyed by
the stored file's `pkgPath`, and component names do not carry the
`component:` key prefix (spec section 6). -/
theorem getAllFiles_dedup_order (prog : ProgramModel) (edges : List (String × String))
    (sc : ScopeRec)
    (hfiles : ∀ e ∈ prog.files, e.2.pkgPath = e.1)
    (hcomp : ∀ e ∈ prog.components, jsStartsWith e.1 "component:" = false) :
    ((Scope.getAllFiles prog edges sc).map (fun f => f.pkgPath)).Nodup
    ∧ ((Scope.getAllFiles prog edges sc).map (fun f => f.pkgPath)).Sublist
        (getAllDependencies edges sc.dependencyGraphKey) := by
  have hsub : ((Scope.getAllFiles prog edges sc).map (fun f => f.pkgPath)).Sublist
      (getAllDependencies edges sc.dependencyGraphKey) := by
    unfold Scope.getAllFiles
    rw [computeAllFiles_eq_filterMap]
    exact filterMap_pkgPath_sublist prog hfiles hcomp _
  exact ⟨(getAllDependencies_nodup edges sc.dependencyGraphKey).sublist hsub, hsub⟩

/-- Witness for C3 on the concrete two-file chain program. -/
theorem getAllFiles_dedup_order_witness :
    (∀ e ∈ chainProg.files, e.2.pkgPath = e.1)
    ∧ (∀ e ∈ chainProg.components, jsStartsWith e.1 "component:" = false)
    ∧ (((Scope.getAllFiles chainProg chainEdges chainScope).map (fun f => f.pkgPath)).Nodup
      ∧ ((Scope.getAllFiles chainProg chainEdges chainScope).map (fun f => f.pkgPath)).Sublist
          (getAllDependencies chainEdges chainScope.dependencyGraphKey)) :=
  ⟨by decide, by decide,
    getAllFiles_dedup_order chainProg chainEdges chainScope (by decide) (by decide)⟩

/-- The parameter-count loop, with a generalized accumulator. -/
theorem minMaxParams_go (params : List Param) (a b : Nat) :
    params.foldl (fun counts param =>
      (if param.isOptional = false then counts.1 + 1 else counts.1, counts.2 + 1)) (a, b)
      = (a + (params.filter (fun p => !p.isOptional)).length, b + params.length) := by
  induction params generalizing a b with
  | nil => simp
  | cons p l ih => cases hp : p.isOptional <;> simp [hp, ih] <;> omega

/-- `minParams` is the number of non-optional parameters, `maxParams` the
total number of parameters. -/
theorem minMaxParams_eq (params : List Param) :
    minMaxParams params = ((params.filter (fun p => !p.isOptional)).length, params.length) := by
  unfold minMaxParams
  simpa using minMaxParams_go params 0 0

/-- C4.  The arity check emits, for each function call resolving to a first
callable in the map, exactly the diagnostic the spec describes: one
mismatch-argument-count diagnostic iff the argument count is outside
`[minParams, maxParams]`, whose display string is `max` when the bounds
agree and `min-max` otherwise, and no diagnostic for calls without a
matching callable or within bounds. -/
theorem wrongParamCount_eq_spec (file : BscFile)
    (callableContainersByLowerName : List (String × List CallableContainer)) :
    diagnosticDetectFunctionCallsWithWrongParamCount file callableContainersByLowerName
      = file.functionCalls.filterMap
          (specMismatchArgDiag callableContainersByLowerName file) := by
  unfold diagnosticDetectFunctionCallsWithWrongParamCount
  refine (foldl_push_eq_filterMap (specMismatchArgDiag callableContainersByLowerName file)
    _ ?_ _ []).trans (by simp)
  intro acc c
  unfold specMismatchArgDiag
  cases h : (mapGet callableContainersByLowerName (jsToLower c.name)).bind List.head? with
  | none => simp [h]
  | some k =>
    simp only [h, minMaxParams_eq]
    by_cases hc : c.argCount < (k.callable.params.filter (fun p => !p.isOptional)).length
        ∨ k.callable.params.length < c.argCount
    · have hb : (c.argCount > k.callable.params.length
          || c.argCount < (k.callable.params.filter (fun p => !p.isOptional)).length) = true := by
        simp only [Bool.or_eq_true, decide_eq_true_eq, gt_iff_lt]
        omega
      rw [if_pos hb, if_pos hc]
    · have hb : ¬((c.argCount > k.callable.params.length
          || c.argCount < (k.callable.params.filter (fun p => !p.isOptional)).length) = true) := by
        simp only [Bool.or_eq_true, decide_eq_true_eq, gt_iff_lt]
        omega
      rw [if_neg hb, if_neg hc]

/-- `find?` succeeds exactly when some element satisfies the predicate. -/
theorem find?_isSome_eq_any {α : Type} (p : α → Bool) (l : List α) :
    (l.find? p).isSome = l.any p := by
  induction l with
  | nil => rfl
  | cons a l ih => cases h : p a <;> simp [List.find?_cons, h, ih]

/-- C7.  Script-import validation produces, for each script import of each
own non-typedef file, exactly the per-import outcome the spec describes:
resolution is case-insensitive over the scope's files, an unresolved import
with blank (trimmed) text yields src-cannot-be-empty, an unresolved import
with text yields referenced-file-does-not-exist, a resolved import whose
casing differs yields a case mismatch carrying the canonical pkgPath, and a
resolved import with identical casing yields nothing. -/
theorem scriptImportPaths_eq_spec (ownFiles allFiles : List BscFile) :
    diagnosticValidateScriptImportPaths ownFiles allFiles
      = (getOwnScriptImports ownFiles).filterMap (specScriptImportDiag allFiles) := by
  unfold diagnosticValidateScriptImportPaths
  refine (foldl_push_eq_filterMap (specScriptImportDiag allFiles) _ ?_ _ []).trans (by simp)
  intro acc si
  unfold specScriptImportDiag getFileByRelativePath
  cases h : allFiles.find? (fun f => jsToLower f.pkgPath == jsToLower si.pkgPath) with
  | none =>
    by_cases ht : (jsTrim si.text).length = 0 <;> simp [h, ht]
  | some f =>
    by_cases hne : f.pkgPath ≠ si.pkgPath
    · have hne' : si.pkgPath ≠ f.pkgPath := fun e => hne e.symm
      simp [h, hne, hne']
    · have he : f.pkgPath = si.pkgPath := not_not.mp hne
      simp [h, he]

/-- C8.  The unknown-call check emits, for each call record, exactly the
diagnostic the spec describes: skip `super` inside `.bs` files; a
same-named local variable in the innermost function scope suppresses the
diagnostic regardless of its type; otherwise a call-to-unknown-function
diagnostic carrying the scope's name is emitted iff the callable map has no
entry for the lowered name. -/
theorem unknownCalls_eq_spec (scopeName : String) (file : BscFile)
    (callablesByLowerName : List (String × List CallableContainer)) :
    diagnosticDetectCallsToUnknownFunctions scopeName file callablesByLowerName
      = file.functionCalls.filterMap
          (specUnknownCallDiag scopeName callablesByLowerName file) := by
  unfold diagnosticDetectCallsToUnknownFunctions
  refine (foldl_push_eq_filterMap (specUnknownCallDiag scopeName callablesByLowerName file)
    _ ?_ _ []).trans (by simp)
  intro acc c
  unfold specUnknownCallDiag
  dsimp only
  by_cases h1 : file.extension = ".bs" ∧ jsToLower c.name = "super"
  · have hb : (file.extension == ".bs" && jsToLower c.name == "super") = true := by
      simp [h1.1, h1.2]
    rw [if_pos hb, if_pos h1]
  · have hb : ¬((file.extension == ".bs" && jsToLower c.name == "super") = true) := by
      simpa [Bool.and_eq_true, beq_iff_eq] using h1
    rw [if_neg hb, if_neg h1]
    have hvar : ((file.getFunctionScopeAtPosition c).bind
        (fun s => s.getVariableByName (jsToLower c.name))).isSome
        = (match file.getFunctionScopeAtPosition c with
           | some scope =>
              scope.variableDeclarations.any (fun v => jsToLower v.name == jsToLower c.name)
           | none => false) := by
      cases hs : file.getFunctionScopeAtPosition c with
      | none => rfl
      | some s =>
        show (s.getVariableByName (jsToLower c.name)).isSome = _
        unfold FunctionScope.getVariableByName
        rw [jsToLower_idem]
        exact find?_isSome_eq_any _ _
    by_cases h2 : (match file.getFunctionScopeAtPosition c with
        | some scope =>
            scope.variableDeclarations.any (fun v => jsToLower v.name == jsToLower c.name)
        | none => false) = true
    · rw [if_pos (hvar.trans h2), if_pos h2]
    · rw [if_neg (fun hh => h2 (hvar.symm.trans hh)), if_neg h2]
      cases hm : mapGet callablesByLowerName (jsToLower c.name) with
      | none => simp [hm]
      | some l => cases l <;> simp [hm]

/-- A left fold that appends a per-item chunk is a `flatMap`. -/
theorem foldl_concat_eq_flatMap {α β : Type} (f : α → List β) (step : List β → α → List β)
    (hstep : ∀ acc a, step acc a = acc ++ f a) (l : List α) (acc : List β) :
    l.foldl step acc = acc ++ l.flatMap f := by
  induction l generalizing acc with
  | nil => simp
  | cons a l ih => simp [hstep, ih]

/-- A fold whose step ignores the item keeps the accumulator. -/
theorem foldl_keep_acc {α β : Type} (l : List α) (acc : List β) :
    l.foldl (fun acc _ => acc) acc = acc := by
  induction l <;> simp_all

/-- The override-emission loop of one name group agrees with the spec's
description of it. -/
theorem overrideDiagsForGroup_eq_spec (ownSid globalSid : Nat) (lowerName : String)
    (containers : List CallableContainer) :
    overrideDiagsForGroup ownSid globalSid lowerName containers
      = specOverrideDiagsForGroup ownSid globalSid lowerName containers := by
  unfold overrideDiagsForGroup specOverrideDiagsForGroup
  cases hl : (ancestorNonGlobalCallablesOf ownSid globalSid containers).getLast? with
  | none =>
    have he : ancestorNonGlobalCallablesOf ownSid globalSid containers = [] := by
      simpa [List.getLast?_eq_none_iff] using hl
    simp [he]
  | some deepest =>
    have hne : ancestorNonGlobalCallablesOf ownSid globalSid containers ≠ [] := by
      intro e
      rw [e] at hl
      simp at hl
    have hanc : 0 < (ancestorNonGlobalCallablesOf ownSid globalSid containers).length :=
      List.length_pos.mpr hne
    simp only [hl]
    by_cases hn : lowerName = "init"
    · subst hn
      simp only [ne_eq, not_true_eq_false, if_false, and_false]
      by_cases hown : 0 < (ownCallablesOf ownSid globalSid containers).length
      · rw [if_pos ⟨hown, hanc⟩, foldl_keep_acc]
      · rw [if_neg (fun hc => hown hc.1)]
    · by_cases hown : ownCallablesOf ownSid globalSid containers = []
      · simp [hown]
      · have hpos : 0 < (ownCallablesOf ownSid globalSid containers).length :=
          List.length_pos.mpr hown
        rw [if_pos ⟨hpos, hanc⟩, if_pos ⟨hown, hn⟩]
        refine (foldl_push_eq_filterMap (fun c =>
          if deepest.callable.file.fid = c.callable.file.fid then none
          else some (Diag.overridesAncestorFunction c.callable.name c.scope.name
            deepest.callable.file.pkgPath deepest.scope.name
            c.callable.nameRange c.callable.file.fid)) _ ?_ _ []).trans (by simp)
        intro acc c
        rw [if_pos hn]
        by_cases hf : deepest.callable.file.fid = c.callable.file.fid <;> simp [hf]

/-- The duplicate-emission branch of one name group is literally the spec's
description of it (`1 < n` and `2 ≤ n` coincide on `Nat`). -/
theorem duplicateDiagsForGroup_eq_spec (ownSid globalSid : Nat)
    (containers : List CallableContainer) :
    duplicateDiagsForGroup ownSid globalSid containers
      = specDuplicateDiagsForGroup ownSid globalSid containers := rfl

/-- Filtering distributes over `flatMap`. -/
theorem filter_flatMap_comm {α β : Type} (p : β → Bool) (f : α → List β) (l : List α) :
    (l.flatMap f).filter p = l.flatMap (fun a => (f a).filter p) := by
  induction l <;> simp_all [List.filter_append]

/-- Every diagnostic of a group's override list is an override diagnostic. -/
theorem mem_specOverride_isOverride (ownSid globalSid : Nat) (lowerName : String)
    (containers : List CallableContainer) (d : Diag)
    (hd : d ∈ specOverrideDiagsForGroup ownSid globalSid lowerName containers) :
    Diag.isOverridesAncestor d = true := by
  unfold specOverrideDiagsForGroup at hd
  dsimp only at hd
  cases hl : (ancestorNonGlobalCallablesOf ownSid globalSid containers).getLast? with
  | none => rw [hl] at hd; simp at hd
  | some deepest =>
    rw [hl] at hd
    dsimp only at hd
    by_cases hg : ownCallablesOf ownSid globalSid containers ≠ [] ∧ lowerName ≠ "init"
    · rw [if_pos hg] at hd
      rcases List.mem_filterMap.mp hd with ⟨c, _, hcd⟩
      by_cases hf : deepest.callable.file.fid = c.callable.file.fid
      · rw [if_pos hf] at hcd; cases hcd
      · rw [if_neg hf] at hcd
        cases hcd
        rfl
    · rw [if_neg hg] at hd; simp at hd

/-- A group's duplicate diagnostics contain no override diagnostic. -/
theorem dup_filter_override (ownSid globalSid : Nat) (containers : List CallableContainer) :
    (duplicateDiagsForGroup ownSid globalSid containers).filter Diag.isOverridesAncestor = [] := by
  unfold duplicateDiagsForGroup
  dsimp only
  split
  · simp [List.filter_map, Function.comp_def, Diag.isOverridesAncestor]
  · rfl

/-- A group's override diagnostics contain no duplicate diagnostic. -/
theorem override_filter_dup (ownSid globalSid : Nat) (lowerName : String)
    (containers : List CallableContainer) :
    (overrideDiagsForGroup ownSid globalSid lowerName containers).filter Diag.isDuplicateImpl
      = [] := by
  rw [overrideDiagsForGroup_eq_spec]
  rw [List.filter_eq_nil_iff]
  intro d hd
  have := mem_specOverride_isOverride ownSid globalSid lowerName containers d hd
  cases d <;> simp_all [Diag.isOverridesAncestor, Diag.isDuplicateImpl]

/-- A group's duplicate diagnostics all are duplicate diagnostics. -/
theorem dup_filter_dup (ownSid globalSid : Nat) (containers : List CallableContainer) :
    (duplicateDiagsForGroup ownSid globalSid containers).filter Diag.isDuplicateImpl
      = duplicateDiagsForGroup ownSid globalSid containers := by
  rw [List.filter_eq_self]
  intro d hd
  unfold duplicateDiagsForGroup at hd
  dsimp only at hd
  by_cases hg : 1 < (ownCallablesOf ownSid globalSid containers).length
  · rw [if_pos hg] at hd
    rcases List.mem_map.mp hd with ⟨c, _, hcd⟩
    rw [← hcd]
    rfl
  · rw [if_neg hg] at hd; simp at hd

/-- A group's override diagnostics all are override diagnostics. -/
theorem override_filter_override (ownSid globalSid : Nat) (lowerName : String)
    (containers : List CallableContainer) :
    (overrideDiagsForGroup ownSid globalSid lowerName containers).filter Diag.isOverridesAncestor
      = specOverrideDiagsForGroup ownSid globalSid lowerName containers := by
  rw [overrideDiagsForGroup_eq_spec, List.filter_eq_self]
  exact mem_specOverride_isOverride ownSid globalSid lowerName containers

/-- C5.  During duplicate/override detection, the override diagnostics are
exactly as the spec describes them: per lowercase name with at least one own
callable and at least one non-global ancestor container, one info diagnostic
per own callable referencing the last ancestor container, skipping the name
`init` and own callables declared in the same file as that ancestor's
callable. -/
theorem findDuplicates_override_spec (ownSid globalSid : Nat)
    (callableContainersByLowerName : List (String × List CallableContainer)) :
    (diagnosticFindDuplicateFunctionDeclarations ownSid globalSid
        callableContainersByLowerName).filter Diag.isOverridesAncestor
      = callableContainersByLowerName.flatMap
          (fun e => specOverrideDiagsForGroup ownSid globalSid e.1 e.2) := by
  unfold diagnosticFindDuplicateFunctionDeclarations
  rw [foldl_concat_eq_flatMap
    (fun e => overrideDiagsForGroup ownSid globalSid e.1 e.2
      ++ duplicateDiagsForGroup ownSid globalSid e.2) _ (fun acc e => by simp) _ []]
  rw [List.nil_append, filter_flatMap_comm]
  congr 1
  funext e
  rw [List.filter_append, override_filter_override, dup_filter_override, List.append_nil]

/-- C6.  During duplicate detection, the duplicate-function-implementation
error diagnostics are exactly as the spec describes them: per lowercase name
with two or more own callables, one error diagnostic per own callable, and
none when the scope surfaces at most one callable with that name. -/
theorem findDuplicates_duplicate_spec (ownSid globalSid : Nat)
    (callableContainersByLowerName : List (String × List CallableContainer)) :
    (diagnosticFindDuplicateFunctionDeclarations ownSid globalSid
        callableContainersByLowerName).filter Diag.isDuplicateImpl
      = callableContainersByLowerName.flatMap
          (fun e => specDuplicateDiagsForGroup ownSid globalSid e.2) := by
  unfold diagnosticFindDuplicateFunctionDeclarations
  rw [foldl_concat_eq_flatMap
    (fun e => overrideDiagsForGroup ownSid globalSid e.1 e.2
      ++ duplicateDiagsForGroup ownSid globalSid e.2) _ (fun acc e => by simp) _ []]
  rw [List.nil_append, filter_flatMap_comm]
  congr 1
  funext e
  rw [List.filter_append, override_filter_dup, dup_filter_dup, List.nil_append,
    duplicateDiagsForGroup_eq_spec]

/-! Concrete checks of the spec's literal scenarios (section 8), evaluating
the source embeddings on the scenario inputs. -/

example :
    diagnosticDetectFunctionCallsWithWrongParamCount greetCallFile greetMap
      = [Diag.mismatchArgumentCount "1-2" 3 {} 0] := by decide

example : overrideDiagsForGroup 1 0 "init" initContainers = [] := by decide

example :
    duplicateDiagsForGroup 1 0 runContainers
      = [Diag.duplicateFunctionImplementation "run" "source" {} 3,
         Diag.duplicateFunctionImplementation "run" "source" {} 4] := by decide

example :
    diagnosticDetectCallsToUnknownFunctions "source" fooCallFile []
      = [Diag.callToUnknownFunction "foo" "source" {} 0] := by decide

example :
    diagnosticValidateScriptImportPaths [caseMismatchImporter] [caseMismatchTarget]
      = [Diag.scriptImportCaseMismatch "pkg:/lib/Foo.brs" {} 0] := by decide

end Bsc
